import Mathlib

/-!
Verification development for the DumbTerm session-relay subsystem.

The definitions below are a shallow embedding of the program's
JavaScript source: the Express/ws server (brute-force lockout,
PIN verification, WebSocket connection gating, PTY lifecycle wiring),
the demo PTY implementation, and the browser-side
`TerminalManager` (reconnection backoff, tab management, session
persistence with transcript trimming).  Strings are modelled as
`List Char`; times are milliseconds as `Nat`; the mutable maps
(`loginAttempts`, `this.terminals`) are insertion-ordered association
lists, matching the iteration order of a JavaScript `Map`.
-/

namespace DumbTerm

/-! ### Character and string helpers -/

/-- ASCII model of the JavaScript `\s` character class (whitespace). -/
def isWsChar (c : Char) : Bool :=
  c = ' ' || c = '\t' || c = '\n' || c = '\r' || c = '\x0b' || c = '\x0c'

/-- The JavaScript regex `.` : any character except a line terminator. -/
def isDotChar (c : Char) : Bool :=
  !(c = '\n' || c = '\r' || c = '\u2028' || c = '\u2029')

/-- The JavaScript regex `\w` character class: `[A-Za-z0-9_]`. -/
def isWordChar (c : Char) : Bool :=
  ('a' ≤ c && c ≤ 'z') || ('A' ≤ c && c ≤ 'Z') || ('0' ≤ c && c ≤ '9') || c = '_'

/-- The JavaScript regex `\d` character class. -/
def isDigitChar (c : Char) : Bool :=
  '0' ≤ c && c ≤ '9'

/-- Drop trailing whitespace, as `String.prototype.trimEnd`. -/
def trimEndChars (cs : List Char) : List Char :=
  (cs.reverse.dropWhile isWsChar).reverse

/-- Drop leading and trailing whitespace, as `String.prototype.trim`. -/
def trimChars (cs : List Char) : List Char :=
  trimEndChars (cs.dropWhile isWsChar)

def splitOnAux (sep : Char) : List Char → List Char → List (List Char)
  | [], acc => [acc.reverse]
  | c :: rest, acc =>
    if c = sep then acc.reverse :: splitOnAux sep rest []
    else splitOnAux sep rest (c :: acc)

/-- Model of `String.prototype.split` with a single-character separator. -/
def splitOn (sep : Char) (cs : List Char) : List (List Char) :=
  splitOnAux sep cs []

def splitLinesAux : List Char → List Char → List (List Char)
  | [], acc => [acc.reverse]
  | '\r' :: '\n' :: rest, acc => acc.reverse :: splitLinesAux rest []
  | '\n' :: rest, acc => acc.reverse :: splitLinesAux rest []
  | c :: rest, acc => splitLinesAux rest (c :: acc)

/-- Model of `content.split(/\r?\n/)` from `saveSessionState`. -/
def splitLines (cs : List Char) : List (List Char) :=
  splitLinesAux cs []

/-! ### Association-list model of a JavaScript `Map` keyed by `Nat` -/

/-- Model of `Map.prototype.get`. -/
def assocGet {α : Type} : List (Nat × α) → Nat → Option α
  | [], _ => none
  | p :: rest, k => if p.1 = k then some p.2 else assocGet rest k

/-- Model of `Map.prototype.set`: updates in place (keeping insertion position) or
appends a new entry. -/
def assocSet {α : Type} : List (Nat × α) → Nat → α → List (Nat × α)
  | [], k, v => [(k, v)]
  | p :: rest, k, v => if p.1 = k then (k, v) :: rest else p :: assocSet rest k v

/-- Model of `Map.prototype.delete`. -/
def assocDelete {α : Type} : List (Nat × α) → Nat → List (Nat × α)
  | [], _ => []
  | p :: rest, k => if p.1 = k then rest else p :: assocDelete rest k

/-! ### Server: constant-time PIN comparison (`verifyPin`, server lines 136-148) -/

/-- Model of `verifyPin(storedPin, providedPin)`: false on a missing/empty argument or a
length mismatch, otherwise `crypto.timingSafeEqual` on the two buffers, which
decides byte equality (equal strings have equal UTF-8 buffers, and
`timingSafeEqual` throwing on a byte-length mismatch is caught and
returned as false — extensionally plain equality on the remaining cases). -/
def verifyPin (storedPin providedPin : List Char) : Bool :=
  if storedPin.isEmpty || providedPin.isEmpty then false
  else if storedPin.length ≠ providedPin.length then false
  else decide (storedPin = providedPin)

/-- The guard `!PIN || PIN.trim() === ''` used as the configured-PIN test used by every
authentication entry point (`none` models the env variable being unset). -/
def pinActive : Option (List Char) → Bool
  | none => false
  | some p => !(p.isEmpty || (trimChars p).isEmpty)

/-! ### Server: brute-force lockout (`isLockedOut` / `recordAttempt`, lines 76-102) -/

structure AttemptRec where
  count : Nat
  lastAttempt : Nat
deriving DecidableEq

/-- The constant `MAX_ATTEMPTS = 5`. -/
def maxAttempts : Nat := 5

/-- Model of `isLockedOut(ip)`: reads the `loginAttempts` map and, when the record has
reached the threshold but the lockout window has elapsed, clears it
(`resetAttempts`).  Returns the boolean result together with the
possibly-updated map. -/
def isLockedOut (lockoutTime now : Nat) (m : List (Nat × AttemptRec)) (ip : Nat) :
    Bool × List (Nat × AttemptRec) :=
  match assocGet m ip with
  | none => (false, m)
  | some a =>
    if maxAttempts ≤ a.count then
      if now - a.lastAttempt < lockoutTime then (true, m)
      else (false, assocDelete m ip)
    else (false, m)

/-- Model of `recordAttempt(ip)`. -/
def recordAttempt (now : Nat) (m : List (Nat × AttemptRec)) (ip : Nat) :
    List (Nat × AttemptRec) :=
  let a := (assocGet m ip).getD ⟨0, 0⟩
  assocSet m ip ⟨a.count + 1, now⟩

/-! ### Server: `POST /verify-pin` handler (lines 231-295) -/

/-- The `pin` field of the request body: absent, present but not a string,
or a string. -/
inductive PinValue where
  | missing
  | notString
  | str (s : List Char)
deriving DecidableEq

inductive VerifyResponse where
  | bypass200
  | locked429 (minutesLeft : Nat)
  | badFormat400
  | success200
  | invalid401 (attemptsLeft : Nat)
deriving DecidableEq

structure VerifyOutcome where
  resp : VerifyResponse
  attempts : List (Nat × AttemptRec)
  /-- Records whether the response was issued inside the random-delay `setTimeout`
  callback (the artificial 50-150 ms timing-attack jitter). -/
  delayed : Bool
deriving DecidableEq

/-- The `/verify-pin` request handler.  `pin` is the configured PIN
(environment variable), `m` the current `loginAttempts` map. -/
def verifyPinPost (pin : Option (List Char)) (lockoutTime now : Nat)
    (m : List (Nat × AttemptRec)) (ip : Nat) (body : PinValue) : VerifyOutcome :=
  match pin with
  | none => ⟨.bypass200, m, false⟩
  | some storedPin =>
    if storedPin.isEmpty || (trimChars storedPin).isEmpty then ⟨.bypass200, m, false⟩
    else
      let lock := isLockedOut lockoutTime now m ip
      if lock.1 then
        let timeLeft :=
          match assocGet lock.2 ip with
          | some a => (lockoutTime - (now - a.lastAttempt) + 59999) / 60000
          | none => 0
        ⟨.locked429 timeLeft, lock.2, false⟩
      else
        match body with
        | .missing => ⟨.badFormat400, lock.2, false⟩
        | .notString => ⟨.badFormat400, lock.2, false⟩
        | .str s =>
          -- `if (!pin || typeof pin !== 'string')`: `!pin` also rejects ''
          if s.isEmpty then ⟨.badFormat400, lock.2, false⟩
          else if verifyPin storedPin s then ⟨.success200, assocDelete lock.2 ip, true⟩
          else
            let m2 := recordAttempt now lock.2 ip
            let left :=
              match assocGet m2 ip with
              | some a => maxAttempts - a.count
              | none => maxAttempts
            ⟨.invalid401 left, m2, true⟩

/-! ### Server: WebSocket connection gate (`wss.on('connection')`, lines 329-377) -/

/-- Cookie-header parsing from the connection handler: split on `;`, then on
`=`, trimming both parts of every piece.  The handler indexes `parts[1]`
unconditionally, so on a piece with no `=` (a bare word, or the empty piece
a trailing `;` produces) `parts[1]` is `undefined` and `.trim()` throws a
TypeError that propagates uncaught out of the connection handler; the parse
is modelled as failing (`none`) in that case — assignments made before the
throwing piece are unobservable because the handler never reaches the
cookie lookup. -/
def parseCookies (h : List Char) : Option (List (List Char × List Char)) :=
  (splitOn ';' h).foldl
    (fun acc c =>
      match acc with
      | none => none
      | some m =>
        let parts := splitOn '=' c
        match parts.get? 1 with
        | none => none
        | some v => some (m ++ [(trimChars (parts.getD 0 []), trimChars v)]))
    (some [])

/-- Property lookup on the `parsedCookies` object: the last assignment to a
key wins. -/
def cookieLookup : List (List Char × List Char) → List Char → Option (List Char)
  | [], _ => none
  | p :: rest, k =>
    match cookieLookup rest k with
    | some v => some v
    | none => if p.1 = k then some p.2 else none

/-- The cookie name `${projectName}_PIN` (the project name is `dumbterm`). -/
def pinCookieName : List Char := "DUMBTERM_PIN".data

inductive WsDecision where
  | close (code : Nat) (reason : List Char)
  | spawnTerminal
  /-- the cookie-parsing loop threw an uncaught TypeError: the handler stops
  without sending any close frame and without spawning a terminal. -/
  | uncaughtThrow
deriving DecidableEq

/-- The `wss.on('connection')` authentication gate: with no PIN configured the
terminal is created immediately; otherwise a missing cookie header, a missing
PIN cookie, or a cookie failing `verifyPin` closes the socket with policy
violation 1008, a cookie header with a `=`-less piece aborts the handler with
an uncaught TypeError, and only a matching cookie reaches `createTerminal`. -/
def wssOnConnection (pin : Option (List Char)) (cookieHeader : Option (List Char)) :
    WsDecision :=
  match pin with
  | none => .spawnTerminal
  | some p =>
    if p.isEmpty || (trimChars p).isEmpty then .spawnTerminal
    else
      match cookieHeader with
      | none => .close 1008 "Authentication required".data
      | some h =>
        match parseCookies h with
        | none => .uncaughtThrow
        | some cs =>
          match cookieLookup cs pinCookieName with
          | none => .close 1008 "Authentication required".data
          | some v =>
            if v.isEmpty then .close 1008 "Authentication required".data
            else if verifyPin p v then .spawnTerminal
            else .close 1008 "Authentication required".data

/-! ### Relay lifecycle: `createTerminal` wiring (server lines 403-465) and
`DemoTerminal.kill` (demo terminal lines 123-125)

One WebSocket link bound to one PTY session.  The `ws.on('close')` handler
calls `term.kill()`; `DemoTerminal.kill()` emits the `exit` event; the
`term.on('exit')` handler closes the socket when `ws.readyState === OPEN`.
`closeWs` models the WebSocket `close` operation: on an open socket it moves
it to closed and fires the registered close handler, on an already-closed
socket it is a no-op (standard WebSocket semantics); both operations are
total functions — nothing raises. -/

structure RelayState where
  wsOpen : Bool
  termAlive : Bool
deriving DecidableEq

mutual

/-- Model of `term.kill()` as wired by `createTerminal`: the process dies, the `exit`
event is emitted (`DemoTerminal.kill` emits unconditionally), and the `exit`
handler (`if (ws.readyState === ws.OPEN) ws.close()`) closes the socket if it
is still open. -/
def killTerm (s : RelayState) : RelayState :=
  if _h : s.wsOpen then closeWs { s with termAlive := false }
  else { s with termAlive := false }
termination_by (if s.wsOpen then 2 else 0) + 1
decreasing_by simp_all

/-- Model of `ws.close()` and of a transport-level close: on an open socket, transition to closed
and fire the `close` handler (which kills the bound terminal); a close on an
already-closed socket does nothing. -/
def closeWs (s : RelayState) : RelayState :=
  if _h : s.wsOpen then killTerm { s with wsOpen := false } else s
termination_by if s.wsOpen then 2 else 0
decreasing_by simp_all

end

/-- A self-initiated PTY exit delivers the same `exit` event that `kill`
produces, running the same `term.on('exit')` handler. -/
def termExitEvent (s : RelayState) : RelayState :=
  killTerm s

/-! ### Client: reconnection (`connectWebSocket` / `handleReconnect`,
terminal.js lines 727-813) -/

structure CloseEvent where
  code : Nat
  wasClean : Bool
deriving DecidableEq

inductive ReconnectAction where
  /-- On code 1008: print the authentication message and navigate to the login
  page; no reconnection is scheduled. -/
  | redirectLogin
  /-- On a clean close: print the closed-normally message; no reconnection. -/
  | closedNormally
  /-- Schedule `reconnectAttempts++; connectWebSocket()` after `delay` ms. -/
  | scheduleRetry (delay : Nat)
  /-- When attempts are exhausted: print the please-refresh message; no reconnection. -/
  | giveUp
deriving DecidableEq

/-- The constant `maxReconnectAttempts = 5`. -/
def maxReconnectAttempts : Nat := 5

/-- The constant `baseReconnectDelay = 1000`. -/
def baseReconnectDelay : Nat := 1000

/-- Model of `handleReconnect(event)` with the current `reconnectAttempts` counter.
The connection-timeout path calls it with no event (`none`). -/
def handleReconnect (event : Option CloseEvent) (reconnectAttempts : Nat) :
    ReconnectAction :=
  match event with
  | some e =>
    if e.code = 1008 then .redirectLogin
    else if e.wasClean then .closedNormally
    else if reconnectAttempts < maxReconnectAttempts then
      .scheduleRetry (baseReconnectDelay * 2 ^ reconnectAttempts)
    else .giveUp
  | none =>
    if reconnectAttempts < maxReconnectAttempts then
      .scheduleRetry (baseReconnectDelay * 2 ^ reconnectAttempts)
    else .giveUp

/-! ### Client: transcript trimming (`saveSessionState`, terminal.js
lines 922-993)

The six `promptPatterns` regexes, hand-compiled to decidable predicates on
`List Char`.  A regex matches iff some decomposition of the line into the
regex's pieces exists, expressed below with bounded quantifiers over
character positions (`List.range`); out-of-range reads default to `' '`,
which every guard then rejects. -/

/-- Pattern `/^.*@.*[:~][#$>]\s*$/`. -/
def promptPat1 (l : List Char) : Bool :=
  let n := l.length
  (List.range n).any (fun k =>
    ['#', '$', '>'].contains (l.getD k ' ') &&
    decide (1 ≤ k) &&
    [':', '~'].contains (l.getD (k - 1) ' ') &&
    (List.range (k - 1)).any (fun i => l.getD i ' ' = '@') &&
    (List.range (k - 1)).all (fun j => isDotChar (l.getD j ' ')) &&
    (List.range n).all (fun m => decide (m ≤ k) || isWsChar (l.getD m ' ')))

/-- Pattern `/^[^@]+@[^:]+:[^$#>]+[#$>]\s*$/`. -/
def promptPat2 (l : List Char) : Bool :=
  let n := l.length
  (List.range n).any (fun i =>
    l.getD i ' ' = '@' && decide (1 ≤ i) &&
    (List.range i).all (fun m => !(l.getD m ' ' = '@')) &&
    (List.range n).any (fun j =>
      decide (i + 2 ≤ j) && l.getD j ' ' = ':' &&
      (List.range n).all (fun m =>
        decide (m ≤ i) || decide (j ≤ m) || !(l.getD m ' ' = ':')) &&
      (List.range n).any (fun k =>
        decide (j + 2 ≤ k) && ['#', '$', '>'].contains (l.getD k ' ') &&
        (List.range n).all (fun m =>
          decide (m ≤ j) || decide (k ≤ m) ||
          !(['$', '#', '>'].contains (l.getD m ' '))) &&
        (List.range n).all (fun m => decide (m ≤ k) || isWsChar (l.getD m ' ')))))

/-- Pattern `/^[$#>]\s*$/`. -/
def promptPat3 (l : List Char) : Bool :=
  match l with
  | [] => false
  | c :: rest => ['$', '#', '>'].contains c && rest.all isWsChar

/-- The character class `[\w/~]`. -/
def isWordSlashTilde (c : Char) : Bool :=
  isWordChar c || c = '/' || c = '~'

/-- Pattern `/^\w+:\s*[\w/~]+[$#>]\s*$/`. -/
def promptPat4 (l : List Char) : Bool :=
  let n := l.length
  (List.range n).any (fun i =>
    l.getD i ' ' = ':' && decide (1 ≤ i) &&
    (List.range i).all (fun m => isWordChar (l.getD m ' ')) &&
    (List.range (n + 1)).any (fun j =>
      decide (i + 1 ≤ j) &&
      (List.range n).all (fun m =>
        decide (m ≤ i) || decide (j ≤ m) || isWsChar (l.getD m ' ')) &&
      (List.range n).any (fun k =>
        decide (j + 1 ≤ k) &&
        (List.range n).all (fun m =>
          decide (m < j) || decide (k ≤ m) || isWordSlashTilde (l.getD m ' ')) &&
        ['$', '#', '>'].contains (l.getD k ' ') &&
        (List.range n).all (fun m => decide (m ≤ k) || isWsChar (l.getD m ' ')))))

/-- Scanner for the `(?:;\d+)*m` tail of pattern 5, with fuel. -/
def semiGroups : Nat → List Char → Bool
  | _, 'm' :: _ => true
  | Nat.succ fuel, ';' :: c :: rest =>
    isDigitChar c && semiGroups fuel (rest.dropWhile isDigitChar)
  | _, _ => false

/-- Pattern `/^\s*\u001b\[\d+(?:;\d+)*m/` (an unanchored tail: anything may follow). -/
def promptPat5 (l : List Char) : Bool :=
  let n := l.length
  (List.range n).any (fun i =>
    (List.range i).all (fun m => isWsChar (l.getD m ' ')) &&
    l.getD i ' ' = '\x1b' && l.getD (i + 1) ' ' = '[' &&
    (match l.drop (i + 2) with
     | c :: rest => isDigitChar c && semiGroups n (rest.dropWhile isDigitChar)
     | [] => false))

/-- Pattern `/\u001b\[\?\d+[hl]/` (unanchored). -/
def promptPat6 (l : List Char) : Bool :=
  let n := l.length
  (List.range n).any (fun i =>
    l.getD i ' ' = '\x1b' && l.getD (i + 1) ' ' = '[' && l.getD (i + 2) ' ' = '?' &&
    (List.range n).any (fun k =>
      decide (i + 4 ≤ k) && ['h', 'l'].contains (l.getD k ' ') &&
      (List.range n).all (fun m =>
        decide (m < i + 3) || decide (k ≤ m) || isDigitChar (l.getD m ' '))))

/-- Disjunction `promptPatterns.some(pattern => pattern.test(line))`. -/
def isPromptLine (l : List Char) : Bool :=
  promptPat1 l || promptPat2 l || promptPat3 l || promptPat4 l ||
  promptPat5 l || promptPat6 l

/-- The loop body's skip condition: the line (after `trimEnd`) is empty or
matches a prompt pattern. -/
def isBlankOrPrompt (l : List Char) : Bool :=
  let t := trimEndChars l
  t.isEmpty || isPromptLine t

/-- Computation of `lastContentLineIndex`: scanning from the last line upward, the first
index whose line is neither blank nor a prompt (`none` ↔ `seenNonPrompt`
stays false). -/
def findLastContent (lines : List (List Char)) : Option Nat :=
  (List.range lines.length).reverse.find? (fun i => !(isBlankOrPrompt (lines.getD i [])))

/-- Model of `Array.prototype.join('\n')`. -/
def joinNL : List (List Char) → List Char
  | [] => []
  | [l] => l
  | l :: rest => l ++ '\n' :: joinNL rest

/-- The transcript-trimming step of `saveSessionState`: keep lines up to the
last non-blank, non-prompt line and re-append a final newline; an
all-blank-or-prompt buffer becomes empty. -/
def trimTranscript (content : List Char) : List Char :=
  let lines := splitLines content
  match findLastContent lines with
  | some i =>
    let kept := joinNL (lines.take (i + 1))
    if kept.length > 0 then kept ++ ['\n'] else kept
  | none => []

/-! ### Client: tab management and session persistence (`TerminalManager`,
terminal.js lines 363-417 and 922-1078)

`TMState` is the manager's relevant mutable state: `this.terminals` (a
`Map` from tab id to its tab/terminal pair — here the tab's display name and
the terminal's serialized content), `this.activeTabId`, `this.tabCounter`. -/

structure TabInfo where
  name : List Char
  content : List Char
deriving DecidableEq

structure TMState where
  terminals : List (Nat × TabInfo)
  activeTabId : Option Nat
  tabCounter : Nat
deriving DecidableEq

/-- Model of `Array.from(this.terminals.keys())`. -/
def tmKeys (s : TMState) : List Nat :=
  s.terminals.map Prod.fst

/-- Model of `Array.prototype.indexOf` on a key list (only used on present keys). -/
def idxOf (k : Nat) : List Nat → Nat
  | [] => 0
  | x :: rest => if x = k then 0 else idxOf k rest + 1

/-- Model of `Math.max(...keys)` (only evaluated on non-empty maps). -/
def maxKey (m : List (Nat × TabInfo)) : Nat :=
  (m.map Prod.fst).foldl Nat.max 0

/-- The initial tab label `Term${id}` produced by `createTab`. -/
def defaultName (id : Nat) : List Char :=
  "Term".data ++ Nat.toDigits 10 id

/-- Model of `handleNewTab()`: allocate `this.tabCounter++` as the id, register the
tab, and activate it (`activateTab(id, true)`). -/
def handleNewTab (s : TMState) : TMState :=
  let id := s.tabCounter
  { terminals := assocSet s.terminals id { name := defaultName id, content := [] }
    activeTabId := some id
    tabCounter := s.tabCounter + 1 }

/-- Model of `handleTabClose(id)`: remove the tab; if it was active and others remain,
activate the last remaining tab; with no tabs left, reset the counter to 1
and immediately open a fresh tab; otherwise recompute
`tabCounter = max(open ids) + 1`. -/
def handleTabClose (s : TMState) (id : Nat) : TMState :=
  match assocGet s.terminals id with
  | none => s
  | some _ =>
    let m1 := assocDelete s.terminals id
    let wasActive := s.activeTabId = some id
    if m1.length = 0 then
      handleNewTab { terminals := m1, activeTabId := s.activeTabId, tabCounter := 1 }
    else
      { terminals := m1
        activeTabId := if wasActive then (m1.map Prod.fst).getLast? else s.activeTabId
        tabCounter := maxKey m1 + 1 }

/-- One entry of the persisted `sessionState.terminals` array. -/
structure SavedTab where
  id : Nat
  name : List Char
  content : List Char
  order : Nat
deriving DecidableEq

/-- The persisted `sessionState` object. -/
structure SessionState where
  activeTabId : Option Nat
  tabCounter : Nat
  terminals : List SavedTab
deriving DecidableEq

/-- Model of `saveSessionState()`: serialize every open tab with its trimmed
transcript and its position (`keys.indexOf(id)`) as the order. -/
def saveSessionState (s : TMState) : SessionState :=
  { activeTabId := s.activeTabId
    tabCounter := s.tabCounter
    terminals := s.terminals.map (fun p =>
      { id := p.1
        name := p.2.name
        content := trimTranscript p.2.content
        order := idxOf p.1 (tmKeys s) }) }

/-- Stable insertion used to model the (stable) JavaScript `Array.sort` with
comparator `(a.order || 0) - (b.order || 0)`: an element is placed after
every already-placed element with a strictly smaller order and before the
first with an equal or larger one. -/
def insertByOrder (t : SavedTab) : List SavedTab → List SavedTab
  | [] => [t]
  | u :: rest => if u.order < t.order then u :: insertByOrder t rest else t :: u :: rest

/-- Model of `sessionState.terminals.sort((a, b) => (a.order || 0) - (b.order || 0))`,
as a stable sort. -/
def sortByOrder : List SavedTab → List SavedTab
  | [] => []
  | t :: rest => insertByOrder t (sortByOrder rest)

/-- The restore branch of `loadSessionState` (saved state present and
non-empty): recreate the tabs in saved order, recompute the counter as
`max(id) + 1`, and activate the saved active tab, falling back to the first
restored tab when the saved id is absent. -/
def loadFromSaved (st : SessionState) : TMState :=
  let sorted := sortByOrder st.terminals
  let terms := sorted.foldl
    (fun acc t => assocSet acc t.id { name := t.name, content := t.content }) []
  let keys := terms.map Prod.fst
  { terminals := terms
    tabCounter := maxKey terms + 1
    activeTabId :=
      match st.activeTabId with
      | some a => if a ∈ keys then some a else keys.head?
      | none => keys.head? }

/-- The manager state just after the constructor's field initialisation
(`terminals = new Map()`, `activeTabId = null`, `tabCounter = 1`). -/
def initialTM : TMState :=
  { terminals := [], activeTabId := none, tabCounter := 1 }

/-- Model of `loadSessionState()`, called once by the constructor: restore from the
persisted state when it exists and has at least one tab, otherwise create
the single default tab. -/
def loadSessionState (saved : Option SessionState) : TMState :=
  match saved with
  | some st =>
    if st.terminals.length > 0 then loadFromSaved st
    else handleNewTab initialTM
  | none => handleNewTab initialTM

/-- The manager states reachable through startup (`loadSessionState` on an
arbitrary persisted value) followed by any sequence of `handleNewTab` /
`handleTabClose` operations. -/
inductive Reachable : TMState → Prop where
  | init (saved : Option SessionState) : Reachable (loadSessionState saved)
  | newTab {s : TMState} : Reachable s → Reachable (handleNewTab s)
  | close {s : TMState} (id : Nat) : Reachable s → Reachable (handleTabClose s id)

/-! ## Helper lemmas -/

theorem killTerm_apply (s : RelayState) : killTerm s = ⟨false, false⟩ := by
  rcases s with ⟨w, t⟩
  cases w
  · rw [killTerm]
    simp
  · rw [killTerm]
    simp only [reduceDIte]
    rw [closeWs]
    simp only [reduceDIte]
    rw [killTerm]
    simp

theorem closeWs_open (s : RelayState) (h : s.wsOpen = true) :
    closeWs s = ⟨false, false⟩ := by
  rw [closeWs]
  simp only [h, reduceDIte]
  exact killTerm_apply _

theorem closeWs_closed (s : RelayState) (h : s.wsOpen = false) :
    closeWs s = s := by
  rw [closeWs]
  simp [h]

/-! ## Claims -/

/-- C3: for a relay link bound to a PTY session, a link close always kills the
bound PTY, a PTY exit closes the link when it is still open, and both teardown
operations are total and idempotent — killing an already-exited PTY or closing
an already-closed link changes nothing and raises nothing. -/
theorem relay_teardown :
    (∀ s : RelayState, s.wsOpen = true →
      closeWs s = ⟨false, false⟩) ∧
    (∀ s : RelayState,
      (termExitEvent s).wsOpen = false ∧ (termExitEvent s).termAlive = false) ∧
    (∀ s : RelayState, s.wsOpen = false → closeWs s = s) ∧
    (∀ s : RelayState, closeWs (closeWs s) = closeWs s) ∧
    (∀ s : RelayState, killTerm (killTerm s) = killTerm s) := by
  refine ⟨closeWs_open, ?_, closeWs_closed, ?_, ?_⟩
  · intro s
    rw [termExitEvent, killTerm_apply]
    exact ⟨rfl, rfl⟩
  · intro s
    rcases hw : s.wsOpen with _ | _
    · rw [closeWs_closed s hw, closeWs_closed s hw]
    · rw [closeWs_open s hw, closeWs_closed _ rfl]
  · intro s
    rw [killTerm_apply, killTerm_apply]

theorem relay_teardown_witness :
    closeWs ⟨true, true⟩ = ⟨false, false⟩ ∧ closeWs ⟨false, true⟩ = ⟨false, true⟩ :=
  ⟨relay_teardown.1 ⟨true, true⟩ rfl, relay_teardown.2.2.1 ⟨false, true⟩ rfl⟩

/-- C5: after a close that is neither clean nor a policy violation, the delay
before reconnection attempt n (1 ≤ n ≤ 5) is 1000 ms · 2^(n-1)
(`reconnectAttempts = n - 1` when the nth attempt is scheduled); once five
attempts have failed (`reconnectAttempts = 5`) no further attempt is
scheduled and the client prints the please-refresh message. -/
theorem reconnect_backoff (e : CloseEvent) (hcode : e.code ≠ 1008)
    (hclean : e.wasClean = false) :
    (∀ n, 1 ≤ n → n ≤ 5 →
      handleReconnect (some e) (n - 1) =
        .scheduleRetry (1000 * 2 ^ (n - 1))) ∧
    handleReconnect (some e) 5 = .giveUp := by
  constructor
  · intro n h1 h5
    have hlt : n - 1 < maxReconnectAttempts := by
      simp only [maxReconnectAttempts]
      omega
    simp [handleReconnect, hcode, hclean, hlt, baseReconnectDelay]
  · simp [handleReconnect, hcode, hclean, maxReconnectAttempts]

theorem reconnect_backoff_witness :
    handleReconnect (some ⟨1006, false⟩) 0 = .scheduleRetry (1000 * 2 ^ 0) ∧
    handleReconnect (some ⟨1006, false⟩) 5 = .giveUp :=
  ⟨(reconnect_backoff ⟨1006, false⟩ (by decide) rfl).1 1 (by decide) (by decide),
   (reconnect_backoff ⟨1006, false⟩ (by decide) rfl).2⟩

/-- C1 (counterexample): a connection request whose cookie header holds a
non-matching credential cookie next to a `=`-less piece is not closed with
1008 — the parsing loop throws an uncaught TypeError and the handler aborts
before any close frame is sent. -/
theorem ws_cookie_parse_throw :
    wssOnConnection (some "1234".data) (some "foo; DUMBTERM_PIN=0000".data)
      = .uncaughtThrow ∧
    wssOnConnection (some "1234".data) (some "foo; DUMBTERM_PIN=0000".data)
      ≠ .close 1008 "Authentication required".data := by
  decide

/-- C1 (amended, corrected): with an access code configured, a connection
request with no cookie header is closed with policy-violation code 1008; a
request whose cookie header parses (every `;`-piece contains a `=`) but
whose `DUMBTERM_PIN` cookie is absent or fails `verifyPin` is also closed
1008; a header with a `=`-less piece instead aborts the handler with an
uncaught TypeError (no close frame, no spawn); `createTerminal` runs only
when a cookie value passes `verifyPin`; on the client, a close event with
code 1008 yields the redirect-to-login action (no reconnection is
scheduled), whatever the attempt counter. -/
theorem ws_policy_violation (p : List Char) (hne : p.isEmpty = false)
    (htr : (trimChars p).isEmpty = false) :
    wssOnConnection (some p) none = .close 1008 "Authentication required".data ∧
    (∀ h cs, parseCookies h = some cs →
      cookieLookup cs pinCookieName = none →
      wssOnConnection (some p) (some h) = .close 1008 "Authentication required".data) ∧
    (∀ h cs v, parseCookies h = some cs →
      cookieLookup cs pinCookieName = some v →
      verifyPin p v = false →
      wssOnConnection (some p) (some h) = .close 1008 "Authentication required".data) ∧
    (∀ h, parseCookies h = none →
      wssOnConnection (some p) (some h) = .uncaughtThrow) ∧
    (∀ h, wssOnConnection (some p) (some h) = .spawnTerminal →
      ∃ cs v, parseCookies h = some cs ∧
        cookieLookup cs pinCookieName = some v ∧ verifyPin p v = true) ∧
    (∀ e : CloseEvent, e.code = 1008 →
      ∀ n, handleReconnect (some e) n = .redirectLogin) := by
  have hws : ∀ h, wssOnConnection (some p) (some h) =
      (match parseCookies h with
       | none => WsDecision.uncaughtThrow
       | some cs =>
         match cookieLookup cs pinCookieName with
         | none => WsDecision.close 1008 "Authentication required".data
         | some v =>
           if v.isEmpty then WsDecision.close 1008 "Authentication required".data
           else if verifyPin p v then WsDecision.spawnTerminal
           else WsDecision.close 1008 "Authentication required".data) := by
    intro h
    simp [wssOnConnection, hne, htr]
  refine ⟨?_, ?_, ?_, ?_, ?_, ?_⟩
  · simp [wssOnConnection, hne, htr]
  · intro h cs hp hl
    simp only [hws, hp, hl]
  · intro h cs v hp hl hv
    simp only [hws, hp, hl]
    by_cases hv2 : v.isEmpty = true
    · rw [if_pos hv2]
    · rw [if_neg hv2, if_neg (by simp [hv])]
  · intro h hp
    simp only [hws, hp]
  · intro h hspawn
    rw [hws h] at hspawn
    rcases hp : parseCookies h with _ | cs
    · simp only [hp] at hspawn
      cases hspawn
    · simp only [hp] at hspawn
      rcases hl : cookieLookup cs pinCookieName with _ | v
      · simp only [hl] at hspawn
        cases hspawn
      · simp only [hl] at hspawn
        by_cases hv2 : v.isEmpty = true
        · rw [if_pos hv2] at hspawn
          cases hspawn
        · rw [if_neg hv2] at hspawn
          by_cases hvv : verifyPin p v = true
          · exact ⟨cs, v, rfl, hl, hvv⟩
          · rw [if_neg hvv] at hspawn
            cases hspawn
  · intro e hcode n
    simp [handleReconnect, hcode]

theorem ws_policy_violation_witness :
    wssOnConnection (some "1234".data) none =
      .close 1008 "Authentication required".data ∧
    wssOnConnection (some "1234".data) (some "DUMBTERM_PIN=0000".data) =
      .close 1008 "Authentication required".data ∧
    wssOnConnection (some "1234".data) (some "foo".data) = .uncaughtThrow ∧
    handleReconnect (some ⟨1008, false⟩) 0 = .redirectLogin :=
  ⟨(ws_policy_violation "1234".data (by decide) (by decide)).1,
   (ws_policy_violation "1234".data (by decide) (by decide)).2.2.1
     "DUMBTERM_PIN=0000".data [("DUMBTERM_PIN".data, "0000".data)] "0000".data
     (by decide) (by decide) (by decide),
   (ws_policy_violation "1234".data (by decide) (by decide)).2.2.2.1
     "foo".data (by decide),
   (ws_policy_violation "1234".data (by decide) (by decide)).2.2.2.2.2
     ⟨1008, false⟩ rfl 0⟩

/-- C7: with an access code configured, `verifyPin` accepts exactly the
non-empty strings equal to the configured code; a missing or non-string
`pin` field is answered 400 outside the random-delay callback
(`delayed = false`) and independently of the configured code. -/
theorem verify_pin_exact (p : List Char) (hne : p.isEmpty = false)
    (htr : (trimChars p).isEmpty = false) :
    (∀ s, verifyPin p s = true ↔ (s.isEmpty = false ∧ s = p)) ∧
    (∀ lockoutTime now m ip body,
      body = PinValue.missing ∨ body = PinValue.notString →
      (isLockedOut lockoutTime now m ip).1 = false →
      verifyPinPost (some p) lockoutTime now m ip body =
        ⟨.badFormat400, (isLockedOut lockoutTime now m ip).2, false⟩) := by
  constructor
  · intro s
    constructor
    · intro hv
      rw [verifyPin] at hv
      rcases hs : s.isEmpty with _ | _
      · refine ⟨rfl, ?_⟩
        simp only [hne, hs, Bool.or_self, Bool.false_eq_true, if_false] at hv
        split at hv
        · exact absurd hv (by simp)
        · exact (of_decide_eq_true hv).symm
      · simp [hne, hs] at hv
    · rintro ⟨hs, rfl⟩
      simp [verifyPin, hne, hs]
  · intro lockoutTime now m ip body hbody hlock
    rcases hbody with rfl | rfl <;>
      simp [verifyPinPost, hne, htr, hlock]

theorem verify_pin_exact_witness :
    (verifyPin "1234".data "1234".data = true ↔
      (("1234".data : List Char).isEmpty = false ∧ "1234".data = "1234".data)) ∧
    verifyPinPost (some "1234".data) 900000 1000 [] 7 .missing =
      ⟨.badFormat400, (isLockedOut 900000 1000 [] 7).2, false⟩ :=
  ⟨(verify_pin_exact "1234".data (by decide) (by decide)).1 "1234".data,
   (verify_pin_exact "1234".data (by decide) (by decide)).2 900000 1000 [] 7
     .missing (Or.inl rfl) (by decide)⟩

theorem assocDelete_sublist {α : Type} (m : List (Nat × α)) (k : Nat) :
    (assocDelete m k).Sublist m := by
  induction m with
  | nil => simp [assocDelete]
  | cons p rest ih =>
    rw [assocDelete]
    split
    · exact List.sublist_cons_self p rest
    · exact List.Sublist.cons₂ p ih

theorem assocGet_delete_self {α : Type} (m : List (Nat × α)) (k : Nat)
    (hn : (m.map Prod.fst).Nodup) : assocGet (assocDelete m k) k = none := by
  induction m with
  | nil => rfl
  | cons p rest ih =>
    simp only [List.map_cons, List.nodup_cons] at hn
    rw [assocDelete]
    split
    · rename_i hpk
      subst hpk
      rcases hg : assocGet rest p.1 with _ | v
      · rfl
      · exfalso
        apply hn.1
        clear ih hn
        induction rest with
        | nil => simp [assocGet] at hg
        | cons q rest2 ih2 =>
          rw [assocGet] at hg
          split at hg
          · rename_i hq
            simp [← hq]
          · simp only [List.map_cons, List.mem_cons]
            exact Or.inr (ih2 hg)
    · rename_i hpk
      rw [assocGet, if_neg hpk]
      exact ih hn.2

/-- C2: with a code configured, a caller whose lockout record holds
`maxAttempts = 5` or more failures whose last failure is less than the
lockout window old gets the 429 response, with the state untouched and
without the submitted body being consulted (the conclusion holds for every
`body`, correct code included); once the window has elapsed the record is
cleared by the lockout check and the request is processed exactly as it
would be on the cleared state. -/
theorem lockout_gate (p : List Char) (hne : p.isEmpty = false)
    (htr : (trimChars p).isEmpty = false)
    (lockoutTime now : Nat) (m : List (Nat × AttemptRec)) (ip : Nat)
    (rec : AttemptRec) (body : PinValue)
    (hnodup : (m.map Prod.fst).Nodup)
    (hget : assocGet m ip = some rec) (hcount : maxAttempts ≤ rec.count) :
    (now - rec.lastAttempt < lockoutTime →
      verifyPinPost (some p) lockoutTime now m ip body =
        ⟨.locked429 ((lockoutTime - (now - rec.lastAttempt) + 59999) / 60000),
          m, false⟩) ∧
    (lockoutTime ≤ now - rec.lastAttempt →
      assocGet (assocDelete m ip) ip = none ∧
      verifyPinPost (some p) lockoutTime now m ip body =
        verifyPinPost (some p) lockoutTime now (assocDelete m ip) ip body) := by
  constructor
  · intro hwin
    simp [verifyPinPost, isLockedOut, hne, htr, hget, hcount, hwin]
  · intro hwin
    have hdel : assocGet (assocDelete m ip) ip = none :=
      assocGet_delete_self m ip hnodup
    refine ⟨hdel, ?_⟩
    have hlhs : isLockedOut lockoutTime now m ip = (false, assocDelete m ip) := by
      simp [isLockedOut, hget, hcount]
      omega
    have hrhs : isLockedOut lockoutTime now (assocDelete m ip) ip =
        (false, assocDelete m ip) := by
      simp [isLockedOut, hdel]
    simp [verifyPinPost, hne, htr, hlhs, hrhs]

theorem lockout_gate_witness :
    verifyPinPost (some "1234".data) 900000 1000 [(7, ⟨5, 500⟩)] 7
        (.str "1234".data) =
      ⟨.locked429 ((900000 - (1000 - 500) + 59999) / 60000), [(7, ⟨5, 500⟩)], false⟩ ∧
    verifyPinPost (some "1234".data) 900000 900500 [(7, ⟨5, 500⟩)] 7
        (.str "1234".data) =
      verifyPinPost (some "1234".data) 900000 900500 [] 7 (.str "1234".data) :=
  ⟨(lockout_gate "1234".data (by decide) (by decide) 900000 1000
      [(7, ⟨5, 500⟩)] 7 ⟨5, 500⟩ (.str "1234".data) (by decide) rfl
      (by decide)).1 (by decide),
   ((lockout_gate "1234".data (by decide) (by decide) 900000 900500
      [(7, ⟨5, 500⟩)] 7 ⟨5, 500⟩ (.str "1234".data) (by decide) rfl
      (by decide)).2 (by decide)).2⟩

/-- C9 (counterexample): with a code configured, a request with a missing
`pin` field from a caller holding an expired lockout record (5 failures, the
window fully elapsed) does change the lockout state — `isLockedOut`, which
runs before the format check, deletes the expired record. -/
theorem malformed_clears_expired_record :
    (verifyPinPost (some ['1']) 900000 900000 [(7, ⟨5, 0⟩)] 7 .missing).attempts
      ≠ [(7, ⟨5, 0⟩)] := by
  decide

/-- C9 (amended): a malformed verification request (missing or non-string
`pin`) never increments a failed-attempt count and never changes whether the
caller is locked out; the resulting lockout map is exactly the output of the
`isLockedOut` sweep, which either leaves the map unchanged or deletes the
caller's record when that record already has ≥ 5 failures with the window
elapsed; when the caller is locked out the response is the 429 with the map
untouched, otherwise it is the 400 issued outside the delay callback. -/
theorem malformed_no_lockout_effect (p : List Char) (hne : p.isEmpty = false)
    (htr : (trimChars p).isEmpty = false)
    (lockoutTime now : Nat) (m : List (Nat × AttemptRec)) (ip : Nat)
    (body : PinValue) (hnodup : (m.map Prod.fst).Nodup)
    (hbody : body = PinValue.missing ∨ body = PinValue.notString) :
    (verifyPinPost (some p) lockoutTime now m ip body).attempts =
      (isLockedOut lockoutTime now m ip).2 ∧
    ((isLockedOut lockoutTime now m ip).1 = true →
      (verifyPinPost (some p) lockoutTime now m ip body).attempts = m) ∧
    ((isLockedOut lockoutTime now m ip).1 = false →
      (verifyPinPost (some p) lockoutTime now m ip body).resp = .badFormat400 ∧
      (verifyPinPost (some p) lockoutTime now m ip body).delayed = false) ∧
    ((isLockedOut lockoutTime now m ip).2 = m ∨
      ∃ rec, assocGet m ip = some rec ∧ maxAttempts ≤ rec.count ∧
        lockoutTime ≤ now - rec.lastAttempt ∧
        (isLockedOut lockoutTime now m ip).2 = assocDelete m ip) ∧
    (isLockedOut lockoutTime now
        (verifyPinPost (some p) lockoutTime now m ip body).attempts ip).1 =
      (isLockedOut lockoutTime now m ip).1 := by
  have hattempts :
      (verifyPinPost (some p) lockoutTime now m ip body).attempts =
        (isLockedOut lockoutTime now m ip).2 := by
    rcases hbody with rfl | rfl <;>
    · simp only [verifyPinPost, hne, htr, Bool.or_self, Bool.false_eq_true, if_false]
      split <;> rfl
  have hlocksnd : (isLockedOut lockoutTime now m ip).1 = true →
      (isLockedOut lockoutTime now m ip).2 = m := by
    intro h1
    rw [isLockedOut] at h1 ⊢
    rcases hg : assocGet m ip with _ | rec <;> simp only [hg] at h1 ⊢
    split at h1
    · split at h1
      · simp_all
      · simp_all
    · simp_all
  have hcases : (isLockedOut lockoutTime now m ip).2 = m ∨
      ∃ rec, assocGet m ip = some rec ∧ maxAttempts ≤ rec.count ∧
        lockoutTime ≤ now - rec.lastAttempt ∧
        (isLockedOut lockoutTime now m ip).2 = assocDelete m ip ∧
        (isLockedOut lockoutTime now m ip).1 = false := by
    rcases hg : assocGet m ip with _ | rec
    · left
      rw [isLockedOut, hg]
    · by_cases hc : maxAttempts ≤ rec.count
      · by_cases hw : now - rec.lastAttempt < lockoutTime
        · left
          rw [isLockedOut, hg]
          simp [hc, hw]
        · right
          refine ⟨rec, rfl, hc, by omega, ?_, ?_⟩ <;>
          · rw [isLockedOut, hg]
            simp [hc, hw]
      · left
        rw [isLockedOut, hg]
        simp [hc]
  refine ⟨hattempts, ?_, ?_, ?_, ?_⟩
  · intro h1
    rw [hattempts, hlocksnd h1]
  · intro h0
    rcases hbody with rfl | rfl <;>
      simp [verifyPinPost, hne, htr, h0]
  · rcases hcases with h | ⟨rec, hg, hc, hw, hsnd, _⟩
    · exact Or.inl h
    · exact Or.inr ⟨rec, hg, hc, hw, hsnd⟩
  · rw [hattempts]
    rcases hcases with h | ⟨rec, hg, hc, hw, hsnd, hfst⟩
    · rw [h]
    · rw [hsnd, hfst]
      have hdel : assocGet (assocDelete m ip) ip = none :=
        assocGet_delete_self m ip hnodup
      rw [isLockedOut, hdel]

theorem malformed_no_lockout_effect_witness :
    (verifyPinPost (some ['1']) 900000 1000 [(7, ⟨5, 500⟩)] 7 .missing).attempts
      = [(7, ⟨5, 500⟩)] ∧
    (isLockedOut 900000 1000
      (verifyPinPost (some ['1']) 900000 1000 [(7, ⟨5, 500⟩)] 7 .missing).attempts
      7).1 = (isLockedOut 900000 1000 [(7, ⟨5, 500⟩)] 7).1 :=
  ⟨(malformed_no_lockout_effect ['1'] (by decide) (by decide) 900000 1000
      [(7, ⟨5, 500⟩)] 7 .missing (by decide) (Or.inl rfl)).2.1 (by decide),
   (malformed_no_lockout_effect ['1'] (by decide) (by decide) 900000 1000
      [(7, ⟨5, 500⟩)] 7 .missing (by decide) (Or.inl rfl)).2.2.2.2⟩

/-- C4: the transcript-trimming step keeps everything up to the last
non-blank, non-prompt line: for the buffer `"some output\nuser@host:~$ "` it
persists exactly `"some output\n"`, and for any buffer all of whose lines are
blank or match a prompt pattern it persists the empty transcript. -/
theorem transcript_trim :
    trimTranscript "some output\nuser@host:~$ ".data = "some output\n".data ∧
    (∀ content, (∀ l ∈ splitLines content, isBlankOrPrompt l = true) →
      trimTranscript content = []) := by
  constructor
  · decide
  · intro content hall
    have hnone : findLastContent (splitLines content) = none := by
      rw [findLastContent, List.find?_eq_none]
      intro i hi
      rw [List.mem_reverse, List.mem_range] at hi
      rw [List.getD_eq_getElem _ _ hi]
      simp [hall _ (List.getElem_mem hi)]
    rw [trimTranscript, hnone]

theorem transcript_trim_witness :
    trimTranscript "user@host:~$ ".data = [] :=
  transcript_trim.2 "user@host:~$ ".data (by decide)

theorem assocSet_append {α : Type} (m : List (Nat × α)) (k : Nat) (v : α)
    (h : k ∉ m.map Prod.fst) : assocSet m k v = m ++ [(k, v)] := by
  induction m with
  | nil => rfl
  | cons p rest ih =>
    simp only [List.map_cons, List.mem_cons, not_or] at h
    rw [assocSet, if_neg (fun hh => h.1 hh.symm), ih h.2, List.cons_append]

theorem keys_assocSet {α : Type} (m : List (Nat × α)) (k : Nat) (v : α) :
    (assocSet m k v).map Prod.fst =
      if k ∈ m.map Prod.fst then m.map Prod.fst else m.map Prod.fst ++ [k] := by
  induction m with
  | nil => rfl
  | cons p rest ih =>
    rw [assocSet]
    by_cases hp : p.1 = k
    · subst hp
      simp
    · rw [if_neg hp, List.map_cons, ih, List.map_cons]
      by_cases hk : k ∈ rest.map Prod.fst
      · rw [if_pos hk, if_pos (by simp [hk])]
      · have hk2 : k ∉ p.1 :: rest.map Prod.fst := by
          simp only [List.mem_cons, not_or]
          exact ⟨fun hh => hp hh.symm, hk⟩
        rw [if_neg hk, if_neg hk2, List.cons_append]

theorem nodup_assocSet {α : Type} (m : List (Nat × α)) (k : Nat) (v : α)
    (h : (m.map Prod.fst).Nodup) : ((assocSet m k v).map Prod.fst).Nodup := by
  rw [keys_assocSet]
  split
  · exact h
  · rename_i hk
    simp [List.nodup_append, h, hk]

theorem nodup_restore (ts : List SavedTab) (acc : List (Nat × TabInfo))
    (h : (acc.map Prod.fst).Nodup) :
    ((ts.foldl (fun acc t => assocSet acc t.id ⟨t.name, t.content⟩) acc).map
      Prod.fst).Nodup := by
  induction ts generalizing acc with
  | nil => exact h
  | cons t rest ih =>
    rw [List.foldl_cons]
    exact ih _ (nodup_assocSet _ _ _ h)

theorem le_foldl_max (l : List Nat) (a b : Nat) (h : a ∈ l ∨ a ≤ b) :
    a ≤ l.foldl Nat.max b := by
  induction l generalizing b with
  | nil =>
    rcases h with h | h
    · cases h
    · exact h
  | cons x xs ih =>
    rw [List.foldl_cons]
    rcases h with h | h
    · rcases List.mem_cons.mp h with rfl | h2
      · exact ih _ (Or.inr (Nat.le_max_right _ _))
      · exact ih _ (Or.inl h2)
    · exact ih _ (Or.inr (le_trans h (Nat.le_max_left _ _)))

theorem mem_le_maxKey (m : List (Nat × TabInfo)) (k : Nat)
    (h : k ∈ m.map Prod.fst) : k ≤ maxKey m :=
  le_foldl_max _ _ _ (Or.inl h)

theorem map_idxOf_keys (l : List (Nat × TabInfo))
    (hn : (l.map Prod.fst).Nodup) :
    l.map (fun p => idxOf p.1 (l.map Prod.fst)) = List.range l.length := by
  induction l with
  | nil => rfl
  | cons q rest ih =>
    simp only [List.map_cons, List.nodup_cons] at hn
    rw [List.map_cons, List.map_cons]
    have h0 : idxOf q.1 (q.1 :: rest.map Prod.fst) = 0 := by
      rw [idxOf, if_pos rfl]
    have hrest : rest.map (fun p => idxOf p.1 (q.1 :: rest.map Prod.fst)) =
        rest.map (fun p => idxOf p.1 (rest.map Prod.fst) + 1) := by
      apply List.map_congr_left
      intro p hp
      have hne : q.1 ≠ p.1 := by
        intro he
        exact hn.1 (he ▸ List.mem_map_of_mem Prod.fst hp)
      rw [idxOf, if_neg hne]
    rw [h0, hrest, List.length_cons, List.range_succ_eq_map]
    congr 1
    have := ih hn.2
    calc rest.map (fun p => idxOf p.1 (rest.map Prod.fst) + 1)
        = (rest.map (fun p => idxOf p.1 (rest.map Prod.fst))).map Nat.succ := by
          rw [List.map_map]
          rfl
      _ = (List.range rest.length).map Nat.succ := by rw [this]

theorem insertByOrder_front (t : SavedTab) (rest : List SavedTab)
    (h : ∀ u ∈ rest, t.order < u.order) : insertByOrder t rest = t :: rest := by
  cases rest with
  | nil => rfl
  | cons u rest2 =>
    rw [insertByOrder,
      if_neg (Nat.not_lt.mpr (Nat.le_of_lt (h u (List.mem_cons_self u rest2))))]

theorem sortByOrder_sorted (l : List SavedTab)
    (h : l.Pairwise (fun a b => a.order < b.order)) : sortByOrder l = l := by
  induction l with
  | nil => rfl
  | cons t rest ih =>
    rw [List.pairwise_cons] at h
    rw [sortByOrder, ih h.2, insertByOrder_front t rest h.1]

theorem restore_append (ts : List SavedTab) (acc : List (Nat × TabInfo))
    (hdisj : ∀ t ∈ ts, t.id ∉ acc.map Prod.fst)
    (hts : (ts.map (fun t => t.id)).Nodup) :
    ts.foldl (fun acc t => assocSet acc t.id ⟨t.name, t.content⟩) acc =
      acc ++ ts.map (fun t => (t.id, ⟨t.name, t.content⟩)) := by
  induction ts generalizing acc with
  | nil => simp
  | cons t rest ih =>
    simp only [List.map_cons, List.nodup_cons] at hts
    have hdisj2 : ∀ u ∈ rest,
        u.id ∉ (acc ++
          [(t.id, ({ name := t.name, content := t.content } : TabInfo))]).map
            Prod.fst := by
      intro u hu
      simp only [List.map_append, List.mem_append, List.map_cons, List.map_nil,
        List.mem_singleton, not_or]
      refine ⟨hdisj u (List.mem_cons_of_mem t hu), ?_⟩
      intro he
      exact hts.1 (he ▸ List.mem_map_of_mem (fun t => t.id) hu)
    rw [List.foldl_cons,
      assocSet_append acc t.id _ (hdisj t (List.mem_cons_self t rest)),
      ih _ hdisj2 hts.2, List.append_assoc, List.map_cons]
    rfl

/-- C6: reloading the state written by `saveSessionState` reconstructs the
same number of tabs with the same ids and names in the same display order,
and restores the saved active tab, falling back to the first restored tab
when the saved active id is not among the restored tabs. -/
theorem session_state_roundtrip (s : TMState)
    (hn : (tmKeys s).Nodup) (hne : s.terminals ≠ []) :
    (loadSessionState (some (saveSessionState s))).terminals.length
      = s.terminals.length ∧
    (loadSessionState (some (saveSessionState s))).terminals.map
        (fun p => (p.1, p.2.name))
      = s.terminals.map (fun p => (p.1, p.2.name)) ∧
    (loadSessionState (some (saveSessionState s))).activeTabId =
      (match s.activeTabId with
       | some a => if a ∈ tmKeys s then some a else (tmKeys s).head?
       | none => (tmKeys s).head?) := by
  have hids : (saveSessionState s).terminals.map (fun t => t.id) = tmKeys s := by
    simp only [saveSessionState, List.map_map]
    rfl
  have horder : (saveSessionState s).terminals.map (fun t => t.order)
      = List.range s.terminals.length := by
    simp only [saveSessionState, List.map_map]
    exact map_idxOf_keys s.terminals hn
  have hpair : (saveSessionState s).terminals.Pairwise
      (fun a b => a.order < b.order) := by
    rw [← List.pairwise_map (f := fun t : SavedTab => t.order), horder]
    exact List.pairwise_lt_range _
  have hsort : sortByOrder (saveSessionState s).terminals
      = (saveSessionState s).terminals := sortByOrder_sorted _ hpair
  have hfold : (saveSessionState s).terminals.foldl
      (fun acc t => assocSet acc t.id
        ({ name := t.name, content := t.content } : TabInfo)) []
      = (saveSessionState s).terminals.map
          (fun t => (t.id, ({ name := t.name, content := t.content } : TabInfo))) := by
    have := restore_append (saveSessionState s).terminals []
      (by intro t ht; simp) (by rw [hids]; exact hn)
    simpa using this
  have hlen : (saveSessionState s).terminals.length > 0 := by
    simp only [saveSessionState, List.length_map]
    exact List.length_pos.mpr hne
  have hload : loadSessionState (some (saveSessionState s))
      = loadFromSaved (saveSessionState s) := by
    rw [loadSessionState, if_pos hlen]
  have hterms : (loadFromSaved (saveSessionState s)).terminals
      = s.terminals.map
          (fun p => (p.1, ⟨p.2.name, trimTranscript p.2.content⟩)) := by
    rw [loadFromSaved]
    simp only
    rw [hsort, hfold]
    simp only [saveSessionState, List.map_map]
    rfl
  have hkeys : (loadFromSaved (saveSessionState s)).terminals.map Prod.fst
      = tmKeys s := by
    rw [hterms, List.map_map]
    rfl
  refine ⟨?_, ?_, ?_⟩
  · rw [hload, hterms, List.length_map]
  · rw [hload, hterms, List.map_map]
    rfl
  · rw [hload]
    have hact : (loadFromSaved (saveSessionState s)).activeTabId
        = (match s.activeTabId with
           | some a =>
             if a ∈ (loadFromSaved (saveSessionState s)).terminals.map Prod.fst
             then some a
             else ((loadFromSaved (saveSessionState s)).terminals.map Prod.fst).head?
           | none =>
             ((loadFromSaved (saveSessionState s)).terminals.map Prod.fst).head?) :=
      rfl
    rw [hact, hkeys]

theorem session_state_roundtrip_witness :
    (loadSessionState (some (saveSessionState
        ⟨[(1, ⟨"sh".data, []⟩), (2, ⟨"logs".data, []⟩)], some 2, 3⟩))).terminals.map
      (fun p => (p.1, p.2.name))
    = [(1, "sh".data), (2, "logs".data)] ∧
    (loadSessionState (some (saveSessionState
        ⟨[(1, ⟨"sh".data, []⟩), (2, ⟨"logs".data, []⟩)], some 2, 3⟩))).activeTabId
    = some 2 := by
  have h := session_state_roundtrip
    ⟨[(1, ⟨"sh".data, []⟩), (2, ⟨"logs".data, []⟩)], some 2, 3⟩
    (by decide) (by decide)
  exact ⟨h.2.1, h.2.2⟩

/-- The tab-manager invariant: open-tab identifiers are distinct and all
strictly below the counter. -/
def tmInv (s : TMState) : Prop :=
  (tmKeys s).Nodup ∧ ∀ id ∈ tmKeys s, id < s.tabCounter

theorem tmInv_newTab (s : TMState) (h : tmInv s) : tmInv (handleNewTab s) := by
  have hnotin : s.tabCounter ∉ tmKeys s := fun hm =>
    absurd (h.2 _ hm) (lt_irrefl _)
  have hnotin2 : s.tabCounter ∉ List.map Prod.fst s.terminals := hnotin
  have hkeys : tmKeys (handleNewTab s) = tmKeys s ++ [s.tabCounter] := by
    show (assocSet s.terminals s.tabCounter _).map Prod.fst = _
    rw [keys_assocSet, if_neg hnotin2]
    rfl
  constructor
  · rw [hkeys]
    simp [List.nodup_append, h.1, hnotin]
  · intro id hm
    rw [hkeys, List.mem_append, List.mem_singleton] at hm
    show id < s.tabCounter + 1
    rcases hm with hm | rfl
    · exact Nat.lt_succ_of_lt (h.2 _ hm)
    · exact Nat.lt_succ_self _

theorem tmInv_close (s : TMState) (id : Nat) (h : tmInv s) :
    tmInv (handleTabClose s id) := by
  rw [handleTabClose]
  rcases hg : assocGet s.terminals id with _ | v
  · exact h
  · simp only
    have hsub : ((assocDelete s.terminals id).map Prod.fst).Sublist (tmKeys s) :=
      (assocDelete_sublist s.terminals id).map Prod.fst
    have hnd : ((assocDelete s.terminals id).map Prod.fst).Nodup :=
      h.1.sublist hsub
    split
    · rename_i hzero
      rw [List.length_eq_zero.mp hzero]
      exact tmInv_newTab _ ⟨List.nodup_nil, by intro i hi; cases hi⟩
    · refine ⟨hnd, ?_⟩
      intro i hi
      exact Nat.lt_succ_of_le (mem_le_maxKey _ _ hi)

theorem tmInv_load (saved : Option SessionState) :
    tmInv (loadSessionState saved) := by
  have hinit : tmInv (handleNewTab initialTM) :=
    tmInv_newTab _ ⟨List.nodup_nil, by intro i hi; cases hi⟩
  rcases saved with _ | st
  · exact hinit
  · rw [loadSessionState]
    split
    · constructor
      · exact nodup_restore _ _ List.nodup_nil
      · intro i hi
        exact Nat.lt_succ_of_le (mem_le_maxKey _ _ hi)
    · exact hinit

theorem reachable_inv {s : TMState} (h : Reachable s) : tmInv s := by
  induction h with
  | init saved => exact tmInv_load saved
  | newTab _ ih => exact tmInv_newTab _ ih
  | close id _ ih => exact tmInv_close _ id ih

/-- C10: in every reachable manager state the counter strictly dominates the
identifier of every open tab, so the identifier the next `handleNewTab` hands
out (`tabCounter`) is never the identifier of a currently-open tab. -/
theorem counter_dominates_ids (s : TMState) (h : Reachable s) :
    (∀ id ∈ tmKeys s, id < s.tabCounter) ∧ s.tabCounter ∉ tmKeys s :=
  ⟨(reachable_inv h).2,
   fun hm => absurd ((reachable_inv h).2 _ hm) (lt_irrefl _)⟩

theorem counter_dominates_ids_witness :
    1 < (loadSessionState none).tabCounter ∧
    (loadSessionState none).tabCounter ∉ tmKeys (loadSessionState none) :=
  ⟨(counter_dominates_ids _ (Reachable.init none)).1 1 (by decide),
   (counter_dominates_ids _ (Reachable.init none)).2⟩

/-- C8 (counterexample): identifiers are not allocated monotonically across
the whole history.  Starting from the single default tab, open a second tab
(id 2, counter 3), close it (one tab remains, yet the counter is recomputed
to `maxId + 1 = 2`), and open a tab again: id 2 is allocated a second time
although the last open tab was never closed and the counter was never reset
to 1. -/
theorem tab_ids_recycled :
    2 ∈ tmKeys (handleNewTab (loadSessionState none)) ∧
    (handleTabClose (handleNewTab (loadSessionState none)) 2).terminals ≠ [] ∧
    (handleTabClose (handleNewTab (loadSessionState none)) 2).tabCounter = 2 ∧
    (handleNewTab
      (handleTabClose (handleNewTab (loadSessionState none)) 2)).activeTabId
      = some 2 := by
  decide

/-- C8 (amended, corrected): open-tab identifiers are unique, and each
`handleNewTab` allocates an identifier strictly larger than every
currently-open tab's identifier; however, after a close the counter is
recomputed as `max(remaining ids) + 1` — so identifiers of closed tabs can be
reallocated even while tabs remain open — and the close of the last open tab
resets the counter to 1 and immediately opens the fresh tab 1 (leaving the
counter at 2). -/
theorem tab_counter_discipline (s : TMState) (h : Reachable s) :
    (tmKeys s).Nodup ∧
    (∀ id ∈ tmKeys s, id < s.tabCounter) ∧
    (∀ id, assocGet s.terminals id ≠ none →
      ((assocDelete s.terminals id).length ≠ 0 →
        (handleTabClose s id).tabCounter
          = maxKey (assocDelete s.terminals id) + 1) ∧
      ((assocDelete s.terminals id).length = 0 →
        (handleTabClose s id).tabCounter = 2 ∧
        tmKeys (handleTabClose s id) = [1])) := by
  refine ⟨(reachable_inv h).1, (reachable_inv h).2, ?_⟩
  intro id hne
  rcases hg : assocGet s.terminals id with _ | v
  · exact absurd hg hne
  · constructor
    · intro hlen
      rw [handleTabClose, hg]
      simp only
      rw [if_neg hlen]
    · intro hlen
      rw [handleTabClose, hg]
      simp only
      rw [if_pos hlen, List.length_eq_zero.mp hlen]
      exact ⟨rfl, rfl⟩

theorem tab_counter_discipline_witness :
    (tmKeys (loadSessionState none)).Nodup ∧
    (handleTabClose (loadSessionState none) 1).tabCounter = 2 :=
  ⟨(tab_counter_discipline _ (Reachable.init none)).1,
   (((tab_counter_discipline _ (Reachable.init none)).2.2 1 (by decide)).2
     (by decide)).1⟩

end DumbTerm
